import Mathlib

/-!
Verification of the learning-path backend (TypeScript/Express over Supabase,
Groq and Google Calendar) against its natural-language specification.

The TypeScript sources are shallowly embedded:
- JavaScript strings are Lean String values; toLowerCase, trim and includes
  are modelled on character lists (jsToLower, jsTrim, containsSub).
- The Groq chat-completion call is modelled as an oracle value of type
  Except Unit (Option String): an exception, or a response whose message
  content may be null (the code substitutes the empty string for null).
- JSON.parse of the brace-delimited match is modelled as an oracle function
  String -> Except Unit R for the response shape R the code reads off the
  parsed object; an .error models a parse exception.
- The regex match for a brace-delimited object (/\x7b[\s\S]*\x7d/) is
  jsonMatch: the greedy match runs from the first opening brace to the last
  closing brace of the text, and fails when no closing brace follows the
  first opening brace.
- JavaScript number arithmetic is modelled over the rationals; dates are
  modelled by integer day numbers, since the schedule generator only ever
  advances a date by whole days.
- The while loop of generateLearningSchedule can diverge, so it is embedded
  with explicit fuel; a none result means the fuel was exhausted while the
  loop still wanted to continue.
-/

namespace Backend

/-- Characters written via code points so that brace characters never appear
literally in the file. -/
def openBrace : Char := Char.ofNat 123

def closeBrace : Char := Char.ofNat 125

/-- Model of JavaScript String.prototype.toLowerCase. -/
def jsToLower (s : String) : String := String.mk (s.toList.map Char.toLower)

/-- Model of JavaScript String.prototype.trim: drop leading and trailing
whitespace. -/
def jsTrim (s : String) : String :=
  String.mk (((s.toList.dropWhile Char.isWhitespace).reverse.dropWhile
    Char.isWhitespace).reverse)

/-- containsSub needle hay decides whether needle occurs contiguously in
hay; it models String.prototype.includes after both sides are exploded to
character lists. -/
def containsSub : List Char → List Char → Bool
  | needle, [] => needle.isEmpty
  | needle, c :: rest => needle.isPrefixOf (c :: rest) || containsSub needle rest

/-- jsIncludes hay needle models hay.includes(needle). -/
def jsIncludes (hay needle : String) : Bool :=
  containsSub needle.toList hay.toList

/-- JavaScript truthiness of a possibly-absent string: undefined and the
empty string are falsy. -/
def jsTruthy : Option String → Bool
  | none => false
  | some s => !(s == "")

/-- Model of responseText.match over the greedy brace regex used by all
three Groq-backed services: the match, when it exists, spans from the first
opening brace to the last closing brace of the text. -/
def jsonMatch (s : String) : Option String :=
  let cs := s.toList
  match cs.findIdx? (fun c => c == openBrace) with
  | none => none
  | some i =>
    let tail := cs.drop i
    match tail.reverse.findIdx? (fun c => c == closeBrace) with
    | none => none
    | some k => some (String.mk (tail.take (tail.length - k)))

/-- The string holding one opening and one closing brace, used as a minimal
model response containing a JSON object match. -/
def jsonBraces : String := String.mk [openBrace, closeBrace]

/-! ### aiValidation.ts: validateLearningPath -/

/-- Shape the validation route reads off the parsed JSON object
(src aiValidation.ts, interface ValidationResult). -/
structure ValidationResult where
  isValid : Bool
  reason : String
  recommendation : Option String
deriving DecidableEq

/-- Fallback verdict returned when the model response holds no JSON object
(src aiValidation.ts, the jsonMatch-failure branch). -/
def fallbackNoJson : ValidationResult :=
  ⟨true, "Tidak dapat memvalidasi urutan pembelajaran.", none⟩

/-- Fallback verdict returned from the catch block of validateLearningPath
when the completion call or JSON.parse throws. -/
def fallbackCatch : ValidationResult :=
  ⟨true, "Gagal memvalidasi urutan pembelajaran. Koneksi diizinkan secara default.", none⟩

/-- Embedding of validateLearningPath (src aiValidation.ts). The first
component is the returned verdict; the second counts how many completion
requests were issued, which is one on every control path because the single
await precedes all branching and the function has no loop or retry. -/
def validateLearningPath (llm : Except Unit (Option String))
    (parseValidation : String → Except Unit ValidationResult) :
    ValidationResult × Nat :=
  match llm with
  | .error _ => (fallbackCatch, 1)
  | .ok content =>
    let responseText := content.getD ""
    match jsonMatch responseText with
    | none => (fallbackNoJson, 1)
    | some t =>
      match parseValidation t with
      | .error _ => (fallbackCatch, 1)
      | .ok r => (r, 1)

/-! ### aiValidation.ts: checkDuplicateNode -/

/-- Shape the duplicate checker reads off the parsed JSON object. -/
structure DupResponse where
  isDuplicate : Bool
  similarNodeTitle : Option String
  reason : String
deriving DecidableEq

/-- An existing node row passed to the duplicate checker. -/
structure ExistingNode where
  id : String
  title : String
  description : Option String
deriving DecidableEq

/-- Return shape of checkDuplicateNode; similarNode carries the id and the
title of the matched candidate when one resolves. -/
structure DuplicateCheckResult where
  isDuplicate : Bool
  reason : String
  similarNode : Option (String × String)
deriving DecidableEq

/-- Embedding of checkDuplicateNode (src aiValidation.ts). On a completion
exception or a parse exception the catch block reports not-a-duplicate; on
a response without a JSON object it also reports not-a-duplicate; otherwise,
when the parsed object claims a duplicate with a truthy similar title, the
claimed title is re-resolved case-insensitively against the candidate set. -/
def checkDuplicateNode (llm : Except Unit (Option String))
    (parseDup : String → Except Unit DupResponse)
    (newTitle : String) (existingNodes : List ExistingNode) :
    DuplicateCheckResult :=
  match llm with
  | .error _ => ⟨false, "Gagal memeriksa duplikasi.", none⟩
  | .ok content =>
    match jsonMatch (content.getD "") with
    | none => ⟨false, "Tidak dapat memeriksa duplikasi.", none⟩
    | some t =>
      match parseDup t with
      | .error _ => ⟨false, "Gagal memeriksa duplikasi.", none⟩
      | .ok result =>
        if result.isDuplicate = true ∧ jsTruthy result.similarNodeTitle = true then
          ⟨true, result.reason,
            (existingNodes.find? (fun n =>
              jsToLower n.title == jsToLower (result.similarNodeTitle.getD ""))).map
              (fun n => (n.id, n.title))⟩
        else
          ⟨false, result.reason, none⟩

/-! ### aiValidation.ts: estimateWorkflowTime -/

/-- An input node for the time estimator. -/
structure EstimateInputNode where
  id : String
  title : String
  description : Option String
deriving DecidableEq

/-- One per-node entry of the parsed model response. -/
structure AiEstimateNode where
  title : String
  hours : Option ℚ
  description : Option String
deriving DecidableEq

/-- Shape the estimator reads off the parsed JSON object; either field may
be absent. -/
structure EstimateResponse where
  nodes : Option (List AiEstimateNode)
  suggestedDailyHours : Option ℚ
deriving DecidableEq

/-- NodeTimeEstimate (src aiValidation.ts). -/
structure NodeTimeEstimate where
  nodeId : String
  nodeTitle : String
  estimatedHours : ℚ
  description : String
deriving DecidableEq

/-- WorkflowSchedule (src aiValidation.ts); totalDays is an integer because
Math.ceil always lands on one. -/
structure WorkflowSchedule where
  totalHours : ℚ
  nodes : List NodeTimeEstimate
  suggestedDailyHours : ℚ
  totalDays : ℤ
deriving DecidableEq

/-- The case-insensitive two-way substring containment the estimator uses
to match a response entry back to an input node title. -/
def titleMatches (aiTitle nodeTitle : String) : Bool :=
  jsIncludes (jsToLower aiTitle) (jsToLower nodeTitle) ||
    jsIncludes (jsToLower nodeTitle) (jsToLower aiTitle)

/-- result.nodes?.find(textual match) || result.nodes?.[i] in the
estimator. -/
def findAiNode (aiNodes : Option (List AiEstimateNode)) (nodeTitle : String)
    (i : Nat) : Option AiEstimateNode :=
  match aiNodes with
  | none => none
  | some l =>
    match l.find? (fun n => titleMatches n.title nodeTitle) with
    | some n => some n
    | none => l.get? i

/-- Per-node estimate mapping of estimateWorkflowTime, walking the input
nodes with their positional index; aiNode?.hours || 5 and
aiNode?.description || default are modelled with explicit falsiness on zero
and on the empty string. -/
def mapEstimates (resp : EstimateResponse) :
    Nat → List EstimateInputNode → List NodeTimeEstimate
  | _, [] => []
  | i, node :: rest =>
    let aiNode := findAiNode resp.nodes node.title i
    { nodeId := node.id
      nodeTitle := node.title
      estimatedHours :=
        match aiNode with
        | none => 5
        | some a =>
          match a.hours with
          | none => 5
          | some v => if v = 0 then 5 else v
      description :=
        match aiNode with
        | none => "Pelajari " ++ node.title
        | some a =>
          match a.description with
          | none => "Pelajari " ++ node.title
          | some d => if d = "" then "Pelajari " ++ node.title else d } ::
      mapEstimates resp (i + 1) rest

/-- createDefaultEstimate (src aiValidation.ts): the fixed fallback schedule
of 5 hours per node at a daily pace of 2 hours. -/
def createDefaultEstimate (nodes : List EstimateInputNode) : WorkflowSchedule :=
  { totalHours := (nodes.length : ℚ) * 5
    nodes := nodes.map (fun node =>
      { nodeId := node.id
        nodeTitle := node.title
        estimatedHours := 5
        description := "Pelajari " ++ node.title })
    suggestedDailyHours := 2
    totalDays := ⌈((nodes.length : ℚ) * 5) / 2⌉ }

/-- Embedding of estimateWorkflowTime (src aiValidation.ts). A completion
exception or a JSON.parse exception lands in the catch block, and a
response without a JSON object takes the early return; both produce
createDefaultEstimate. totalDays is recomputed locally from totalHours and
the suggested pace. -/
def estimateWorkflowTime (llm : Except Unit (Option String))
    (parseEstimate : String → Except Unit EstimateResponse)
    (nodes : List EstimateInputNode) : WorkflowSchedule :=
  match llm with
  | .error _ => createDefaultEstimate nodes
  | .ok content =>
    match jsonMatch (content.getD "") with
    | none => createDefaultEstimate nodes
    | some t =>
      match parseEstimate t with
      | .error _ => createDefaultEstimate nodes
      | .ok resp =>
        let nodeEstimates := mapEstimates resp 0 nodes
        let totalHours := (nodeEstimates.map (fun n => n.estimatedHours)).sum
        let suggestedDailyHours :=
          match resp.suggestedDailyHours with
          | none => 2
          | some v => if v = 0 then 2 else v
        { totalHours := totalHours
          nodes := nodeEstimates
          suggestedDailyHours := suggestedDailyHours
          totalDays := ⌈totalHours / suggestedDailyHours⌉ }

/-! ### googleCalendar.ts: schedule generator -/

/-- CalendarEvent (src googleCalendar.ts); startDate is modelled by an
integer day number since the generator advances dates by whole days. -/
structure CalendarEvent where
  title : String
  description : String
  startDay : ℤ
  durationHours : ℚ
deriving DecidableEq

/-- The inner while loop of generateLearningSchedule for one node, with
explicit fuel: while hoursScheduled is below the node estimate, carve off
min(dailyHours, remaining) as one session on the current day and advance
one day. A none result means the fuel ran out with the loop still open,
which is how divergence of the source loop is observed. Returns the list
of sessions for the node together with the day after its last session. -/
def sessionLoop (node : NodeTimeEstimate) (dailyHours : ℚ) :
    Nat → ℚ → ℤ → Option (List CalendarEvent × ℤ)
  | fuel, hoursScheduled, day =>
    if hoursScheduled < node.estimatedHours then
      match fuel with
      | 0 => none
      | fuel' + 1 =>
        let sessionHours := min dailyHours (node.estimatedHours - hoursScheduled)
        match sessionLoop node dailyHours fuel' (hoursScheduled + sessionHours) (day + 1) with
        | none => none
        | some (evs, endDay) =>
          some ({ title := node.nodeTitle
                  description := node.description
                  startDay := day
                  durationHours := sessionHours } :: evs, endDay)
    else
      some ([], day)

/-- Embedding of generateLearningSchedule (src googleCalendar.ts): nodes are
expanded strictly in input order, each one starting on the day after the
previous node ended; the same fuel is handed to every node loop. -/
def generateLearningSchedule (fuel : Nat) :
    List NodeTimeEstimate → ℤ → ℚ → Option (List CalendarEvent)
  | [], _, _ => some []
  | node :: rest, day, dailyHours =>
    match sessionLoop node dailyHours fuel 0 day with
    | none => none
    | some (evs, endDay) =>
      match generateLearningSchedule fuel rest endDay dailyHours with
      | none => none
      | some evs' => some (evs ++ evs')

/-! ### googleCalendar.ts: calendar exporter -/

/-- Outcome of one calendar.events.insert request: an exception carrying a
message, or a created event whose id may be absent. -/
inductive ApiResult where
  | ok (id : Option String)
  | err (msg : String)
deriving DecidableEq

/-- Observable run of createCalendarEvents: the events for which an insert
request was issued, in order; the remote ids created and kept (the function
performs no delete, so nothing is ever rolled back); and the value returned
or the error thrown. -/
structure CalRun where
  attempted : List CalendarEvent
  created : List String
  outcome : Except String (List String)

/-- Loop body of createCalendarEvents: issue one insert per event in input
order; push the returned id when present; on the first insert exception,
rethrow with the wrapped message and stop. -/
def createCalendarEventsGo (api : Nat → ApiResult) :
    List CalendarEvent → Nat → List String → CalRun
  | [], _, eventIds => ⟨[], eventIds, .ok eventIds⟩
  | event :: rest, i, eventIds =>
    match api i with
    | .err msg =>
      ⟨[event], eventIds, .error ("Failed to create calendar event: " ++ msg)⟩
    | .ok optId =>
      let eventIds' := eventIds ++ optId.toList
      let r := createCalendarEventsGo api rest (i + 1) eventIds'
      ⟨event :: r.attempted, r.created, r.outcome⟩

/-- Embedding of createCalendarEvents (src googleCalendar.ts); api gives the
remote response to the i-th insert request. -/
def createCalendarEvents (api : Nat → ApiResult) (events : List CalendarEvent) :
    CalRun :=
  createCalendarEventsGo api events 0 []

/-- The ids the remote returns for the k insert requests numbered i, i+1,
..., i+k-1, skipping responses without an id. -/
def createdIds (api : Nat → ApiResult) : Nat → Nat → List String
  | _, 0 => []
  | i, k + 1 =>
    (match api i with | .ok o => o.toList | .err _ => []) ++ createdIds api (i + 1) k

/-! ### learningPath.ts route (the variant keyed on node_pair_validations) -/

/-- A row of the durable node_pair_validations table. -/
structure DbRecord where
  source_name : String
  target_name : String
  is_valid : Bool
  validation_reason : String
  recommendation : Option String
deriving DecidableEq

/-- The durable read: select the row whose source_name and target_name
equal the given names exactly (case-sensitive string equality). -/
def dbLookup (db : List DbRecord) (sourceName targetName : String) :
    Option DbRecord :=
  db.find? (fun r => r.source_name == sourceName && r.target_name == targetName)

/-- The durable write: upsert keyed on (source_name, target_name),
last write wins on conflict. -/
def dbUpsert (db : List DbRecord) (rec : DbRecord) : List DbRecord :=
  if (db.find? (fun r =>
      r.source_name == rec.source_name && r.target_name == rec.target_name)).isSome then
    db.map (fun r =>
      if r.source_name == rec.source_name && r.target_name == rec.target_name then rec
      else r)
  else
    db ++ [rec]

/-- The response object the route builds on a cache miss and stores in the
volatile cache. -/
structure SavedResponse where
  success : Bool
  isValid : Bool
  reason : String
  recommendation : Option String
  saved : Bool
deriving DecidableEq

/-- One volatile cache entry: the stored response and its write time in
milliseconds. -/
structure CacheEntry where
  result : SavedResponse
  timestamp : ℤ
deriving DecidableEq

/-- The volatile cache, an association list modelling the process-wide Map. -/
abbrev MemCache := List (String × CacheEntry)

/-- Map.get. -/
def memGet (m : MemCache) (k : String) : Option CacheEntry :=
  ((m : List (String × CacheEntry)).find? (fun p => p.1 == k)).map (fun p => p.2)

/-- Map.set: overwrite the entry under the key, or append a new one. -/
def memSet (m : MemCache) (k : String) (v : CacheEntry) : MemCache :=
  if ((m : List (String × CacheEntry)).find? (fun p => p.1 == k)).isSome then
    (m : List (String × CacheEntry)).map (fun p => if p.1 == k then (k, v) else p)
  else
    (m : List (String × CacheEntry)) ++ [(k, v)]

/-- Map.delete. -/
def memDelete (m : MemCache) (k : String) : MemCache :=
  (m : List (String × CacheEntry)).filter (fun p => !(p.1 == k))

/-- CACHE_TTL: one hour in milliseconds. -/
def CACHE_TTL : ℤ := 60 * 60 * 1000

/-- getCacheKey (src learningPath route): lowercase then trim both titles
and join with a colon. -/
def getCacheKey (fromNode toNode : String) : String :=
  jsTrim (jsToLower fromNode) ++ ":" ++ jsTrim (jsToLower toNode)

/-- getFromCache: a lookup that lazily evicts an entry older than the TTL;
returns the hit, if any, together with the cache as left behind. -/
def getFromCache (cache : MemCache) (now : ℤ) (fromNode toNode : String) :
    Option SavedResponse × MemCache :=
  let key := getCacheKey fromNode toNode
  match memGet cache key with
  | none => (none, cache)
  | some cached =>
    if now - cached.timestamp > CACHE_TTL then (none, memDelete cache key)
    else (some cached.result, cache)

/-- saveToCache: store the response under the normalized key with the
current time. -/
def saveToCache (cache : MemCache) (now : ℤ) (fromNode toNode : String)
    (result : SavedResponse) : MemCache :=
  memSet cache (getCacheKey fromNode toNode) ⟨result, now⟩

/-- The JSON body the validate-path route sends, with absent fields as
none. -/
structure JsonResponse where
  success : Bool
  isValid : Option Bool
  reason : Option String
  recommendation : Option String
  fromDatabase : Option Bool
  fromCache : Option Bool
  saved : Option Bool
  error : Option String
deriving DecidableEq

/-- Which external interactions a request performed: whether the volatile
cache was consulted, whether the Groq validator was called, and whether a
durable or volatile write was attempted. -/
structure Effects where
  checkedMemCache : Bool
  calledLLM : Bool
  wroteDb : Bool
  wroteMem : Bool
deriving DecidableEq

/-- The effect record of a request that never went past the durable read. -/
def noEffects : Effects := ⟨false, false, false, false⟩

/-- Everything observable about one handling of a validate-path request. -/
structure HandlerOutcome where
  status : Nat
  body : JsonResponse
  effects : Effects
  db : List DbRecord
  cache : MemCache
deriving DecidableEq

/-- Embedding of the POST /validate-path handler (the variant keyed on
node_pair_validations by name). Control flow: reject empty titles; read the
durable store under the trimmed pair and return immediately on a hit with
fromDatabase true; otherwise consult the volatile cache; otherwise call the
validator, upsert the durable row (a failed write is only logged:
dbWriteFails), store the response in the volatile cache and return it. -/
def validatePathHandler (db : List DbRecord) (cache : MemCache) (now : ℤ)
    (llm : Except Unit (Option String))
    (parseValidation : String → Except Unit ValidationResult)
    (dbWriteFails : Bool) (from_node to_node : String) : HandlerOutcome :=
  if from_node = "" ∨ to_node = "" then
    ⟨400, ⟨false, none, none, none, none, none, none,
      some "from_node and to_node are required"⟩, noEffects, db, cache⟩
  else
    let sourceName := jsTrim from_node
    let targetName := jsTrim to_node
    match dbLookup db sourceName targetName with
    | some r =>
      ⟨200, ⟨true, some r.is_valid, some r.validation_reason, r.recommendation,
        some true, none, none, none⟩, noEffects, db, cache⟩
    | none =>
      match getFromCache cache now sourceName targetName with
      | (some cachedResult, cache') =>
        ⟨200, ⟨cachedResult.success, some cachedResult.isValid,
          some cachedResult.reason, cachedResult.recommendation,
          none, some true, some cachedResult.saved, none⟩,
          ⟨true, false, false, false⟩, db, cache'⟩
      | (none, cache') =>
        let validation := (validateLearningPath llm parseValidation).1
        let db' := if dbWriteFails then db else
          dbUpsert db ⟨sourceName, targetName, validation.isValid,
            validation.reason, validation.recommendation⟩
        let response : SavedResponse :=
          ⟨true, validation.isValid, validation.reason,
            validation.recommendation, true⟩
        ⟨200, ⟨true, some validation.isValid, some validation.reason,
          validation.recommendation, none, none, some true, none⟩,
          ⟨true, true, true, true⟩, db',
          saveToCache cache' now sourceName targetName response⟩

/-! ### implement.ts route -/

/-- The daily-hours resolution of the implement route, the expression
daily_hours || schedule.suggestedDailyHours: the body value is forwarded
unchanged unless it is absent or falsy (zero). -/
def resolveDailyHours (daily_hours : Option ℚ) (suggested : ℚ) : ℚ :=
  match daily_hours with
  | none => suggested
  | some d => if d = 0 then suggested else d

/-! ### Concrete values used by witnesses -/

/-- A durable row stored under the exact pair ("Python", "X"). -/
def pyRec : DbRecord := ⟨"Python", "X", true, "ok", none⟩

/-- A parse oracle claiming a duplicate of a title that is not among the
candidates. -/
def dupParseW : String → Except Unit DupResponse :=
  fun _ => Except.ok ⟨true, some "Z", "dup"⟩

/-- A single-node estimator input. -/
def negNodes : List EstimateInputNode := [⟨"1", "A", none⟩]

/-- A parsed model response that reports minus three hours for the node. -/
def negResp : EstimateResponse := ⟨some [⟨"A", some (-3), none⟩], some 2⟩

/-- Parse oracle returning negResp. -/
def negParse : String → Except Unit EstimateResponse :=
  fun _ => Except.ok negResp

/-- A completion outcome whose text holds a JSON object match. -/
def negLlm : Except Unit (Option String) := Except.ok (some jsonBraces)

/-- Remote calendar behaviour: the first insert succeeds with id0, every
later one throws. -/
def calApiW : Nat → ApiResult :=
  fun i => if i = 0 then ApiResult.ok (some "id0") else ApiResult.err "boom"

/-- A calendar event used by the exporter witness. -/
def calEvW : CalendarEvent := ⟨"E", "d", 0, 1⟩

/-- A one-hour node used by the termination witness. -/
def negSchedNode : NodeTimeEstimate := ⟨"1", "A", 1, "a"⟩

/-! ## Theorems -/

/-- C2: if the completion call throws, or its response text holds no
brace-delimited JSON object, validateLearningPath returns a verdict with
isValid true and one of the two fallback reason strings, returning rather
than raising; and on every control path exactly one completion attempt is
made, with no retry. -/
theorem validateLearningPath_failOpen
    (llm : Except Unit (Option String))
    (parseValidation : String → Except Unit ValidationResult) :
    ((llm = .error () ∨ ∃ o, llm = .ok o ∧ jsonMatch (o.getD "") = none) →
      (validateLearningPath llm parseValidation).1.isValid = true ∧
      ((validateLearningPath llm parseValidation).1 = fallbackCatch ∨
       (validateLearningPath llm parseValidation).1 = fallbackNoJson)) ∧
    (validateLearningPath llm parseValidation).2 = 1 := by
  constructor
  · rintro (rfl | ⟨o, rfl, hm⟩)
    · exact ⟨rfl, Or.inl rfl⟩
    · have h : validateLearningPath (Except.ok o) parseValidation = (fallbackNoJson, 1) := by
        unfold validateLearningPath
        simp [hm]
      rw [h]
      exact ⟨rfl, Or.inr rfl⟩
  · cases llm with
    | error e => rfl
    | ok o =>
      unfold validateLearningPath
      cases hm : jsonMatch (o.getD "") with
      | none => simp [hm]
      | some t => cases hp : parseValidation t <;> simp [hm, hp]

/-- Witness for C2 at a throwing completion call. -/
theorem validateLearningPath_failOpen_witness :
    (validateLearningPath (Except.error ()) (fun _ => Except.error ())).1.isValid = true ∧
    ((validateLearningPath (Except.error ()) (fun _ => Except.error ())).1 = fallbackCatch ∨
     (validateLearningPath (Except.error ()) (fun _ => Except.error ())).1 = fallbackNoJson) :=
  (validateLearningPath_failOpen (Except.error ()) (fun _ => Except.error ())).1 (Or.inl rfl)

/-- C7: when the parsed duplicate-check response claims a duplicate with a
truthy similar title, the result is a duplicate verdict whose similarNode is
the case-insensitive resolution of that title against the candidate set, so
the reference is omitted exactly when no candidate matches; and on a
completion exception or a response without a JSON object the verdict is
not-a-duplicate. -/
theorem checkDuplicateNode_spec :
    (∀ (llm : Except Unit (Option String))
       (parseDup : String → Except Unit DupResponse)
       (newTitle : String) (nodes : List ExistingNode) (o : Option String)
       (t : String) (r : DupResponse) (s : String),
      llm = .ok o → jsonMatch (o.getD "") = some t → parseDup t = .ok r →
      r.isDuplicate = true → r.similarNodeTitle = some s → s ≠ "" →
      checkDuplicateNode llm parseDup newTitle nodes =
        ⟨true, r.reason,
          (nodes.find? (fun n => jsToLower n.title == jsToLower s)).map
            (fun n => (n.id, n.title))⟩) ∧
    (∀ (llm : Except Unit (Option String))
       (parseDup : String → Except Unit DupResponse)
       (newTitle : String) (nodes : List ExistingNode),
      (llm = .error () ∨ ∃ o, llm = .ok o ∧ jsonMatch (o.getD "") = none) →
      (checkDuplicateNode llm parseDup newTitle nodes).isDuplicate = false) := by
  constructor
  · rintro llm parseDup newTitle nodes o t r s rfl hm hp hd hs hne
    simp [checkDuplicateNode, hm, hp, hd, hs, jsTruthy, hne]
  · rintro llm parseDup newTitle nodes (rfl | ⟨o, rfl, hm⟩)
    · rfl
    · simp [checkDuplicateNode, hm]

/-- Witness for C7: the model claims a duplicate of title Z against an empty
candidate set, so the verdict keeps isDuplicate true with no similarNode. -/
theorem checkDuplicateNode_spec_witness :
    checkDuplicateNode (Except.ok (some jsonBraces)) dupParseW "T" [] =
      ⟨true, "dup", none⟩ :=
  checkDuplicateNode_spec.1 (Except.ok (some jsonBraces)) dupParseW "T" []
    (some jsonBraces) jsonBraces ⟨true, some "Z", "dup"⟩ "Z"
    rfl (by decide) rfl rfl rfl (by decide)

/-- C1: when both titles are non-empty and the durable store holds a row for
the trimmed pair, the validate-path handler returns that row as its verdict
with fromDatabase true, with no volatile-cache read, no validator call, no
write to either store, and both stores left unchanged. -/
theorem validatePath_dbHit
    (db : List DbRecord) (cache : MemCache) (now : ℤ)
    (llm : Except Unit (Option String))
    (parseValidation : String → Except Unit ValidationResult)
    (dbWriteFails : Bool) (from_node to_node : String) (r : DbRecord)
    (hf : from_node ≠ "") (ht : to_node ≠ "")
    (hdb : dbLookup db (jsTrim from_node) (jsTrim to_node) = some r) :
    validatePathHandler db cache now llm parseValidation dbWriteFails from_node to_node =
      ⟨200, ⟨true, some r.is_valid, some r.validation_reason, r.recommendation,
        some true, none, none, none⟩, noEffects, db, cache⟩ := by
  simp [validatePathHandler, hf, ht, hdb]

/-- Witness for C1: a stored verdict for ("Python", "X") is served for the
request with from_node " Python " (trimmed) without touching anything. -/
theorem validatePath_dbHit_witness :
    validatePathHandler [pyRec] [] 0 (Except.error ())
      (fun _ => Except.error ()) false " Python " "X" =
      ⟨200, ⟨true, some true, some "ok", none, some true, none, none, none⟩,
        noEffects, [pyRec], []⟩ :=
  validatePath_dbHit [pyRec] [] 0 (Except.error ()) (fun _ => Except.error ())
    false " Python " "X" pyRec (by decide) (by decide) (by decide)

/-- C8: the volatile cache key is invariant under lowercase-trim
normalization of a title (in particular it collides for "  Python " and
"python"), while the durable lookup compares the trimmed names
case-sensitively, so a row stored under "Python" is found by "Python" but
not by a lookup for "python". -/
theorem getCacheKey_vs_dbLookup :
    (∀ b : String, getCacheKey "  Python " b = getCacheKey "python" b) ∧
    (∀ a b c : String, jsTrim (jsToLower a) = jsTrim (jsToLower b) →
      getCacheKey a c = getCacheKey b c) ∧
    dbLookup [pyRec] "Python" "X" = some pyRec ∧
    dbLookup [pyRec] "python" "X" = none := by
  refine ⟨fun b => ?_, fun a b c h => ?_, by decide, by decide⟩
  · rw [getCacheKey, getCacheKey,
      show jsTrim (jsToLower "  Python ") = jsTrim (jsToLower "python") from by decide]
  · rw [getCacheKey, getCacheKey, h]

/-- Witness for C8: the hypothesis-bearing conjunct applied at titles that
differ only in case. -/
theorem getCacheKey_vs_dbLookup_witness :
    getCacheKey "A" "x" = getCacheKey "a" "x" :=
  getCacheKey_vs_dbLookup.2.1 "A" "a" "x" (by decide)

/-- C5: when the completion call fails or its text holds no JSON object,
the estimator returns the default schedule: every node at exactly 5 hours,
suggested daily pace 2, totalHours 5 times the node count and totalDays the
ceiling of totalHours over 2. -/
theorem estimateWorkflowTime_default
    (llm : Except Unit (Option String))
    (parseEstimate : String → Except Unit EstimateResponse)
    (nodes : List EstimateInputNode)
    (hne : nodes ≠ [])
    (h : llm = .error () ∨ ∃ o, llm = .ok o ∧ jsonMatch (o.getD "") = none) :
    (∀ e ∈ (estimateWorkflowTime llm parseEstimate nodes).nodes,
      e.estimatedHours = 5) ∧
    (estimateWorkflowTime llm parseEstimate nodes).suggestedDailyHours = 2 ∧
    (estimateWorkflowTime llm parseEstimate nodes).totalHours =
      5 * (nodes.length : ℚ) ∧
    (estimateWorkflowTime llm parseEstimate nodes).totalDays =
      ⌈(5 * (nodes.length : ℚ)) / 2⌉ := by
  have hd : estimateWorkflowTime llm parseEstimate nodes = createDefaultEstimate nodes := by
    rcases h with rfl | ⟨o, rfl, hm⟩
    · rfl
    · unfold estimateWorkflowTime
      simp [hm]
  rw [hd]
  refine ⟨?_, rfl, mul_comm _ _, ?_⟩
  · intro e he
    simp only [createDefaultEstimate, List.mem_map] at he
    obtain ⟨a, _, rfl⟩ := he
    rfl
  · show ⌈((nodes.length : ℚ) * 5) / 2⌉ = ⌈(5 * (nodes.length : ℚ)) / 2⌉
    rw [mul_comm]

/-- Witness for C5 at one node and a throwing completion call. -/
theorem estimateWorkflowTime_default_witness :
    (estimateWorkflowTime (Except.error ()) (fun _ => Except.error ())
      [⟨"1", "A", none⟩]).suggestedDailyHours = 2 :=
  (estimateWorkflowTime_default (Except.error ()) (fun _ => Except.error ())
    [⟨"1", "A", none⟩] (by decide) (Or.inl rfl)).2.1

/-- A node matched by findAiNode comes from the response list. -/
theorem findAiNode_mem (aiNodes : Option (List AiEstimateNode)) (t : String)
    (i : Nat) (a : AiEstimateNode) (h : findAiNode aiNodes t i = some a) :
    ∃ l, aiNodes = some l ∧ a ∈ l := by
  cases aiNodes with
  | none => simp [findAiNode] at h
  | some l =>
    refine ⟨l, rfl, ?_⟩
    cases hf : l.find? (fun n => titleMatches n.title t) with
    | some n =>
      simp only [findAiNode, hf] at h
      cases h
      exact List.mem_of_find?_eq_some hf
    | none =>
      simp only [findAiNode, hf] at h
      exact List.get?_mem h

/-- Every estimate of the default schedule is positive. -/
theorem createDefaultEstimate_pos (nodes : List EstimateInputNode) :
    ∀ e ∈ (createDefaultEstimate nodes).nodes, 0 < e.estimatedHours := by
  intro e he
  simp only [createDefaultEstimate, List.mem_map] at he
  obtain ⟨a, _, rfl⟩ := he
  norm_num

/-- Every mapped estimate is positive when the response never reports a
negative hour value. -/
theorem mapEstimates_pos (resp : EstimateResponse)
    (hresp : ∀ l, resp.nodes = some l → ∀ a ∈ l, ∀ h, a.hours = some h → 0 ≤ h) :
    ∀ (nodes : List EstimateInputNode) (i : Nat),
      ∀ e ∈ mapEstimates resp i nodes, 0 < e.estimatedHours := by
  intro nodes
  induction nodes with
  | nil => intro i e he; simp [mapEstimates] at he
  | cons node rest ih =>
    intro i e he
    rw [mapEstimates] at he
    rcases List.mem_cons.mp he with rfl | htail
    · dsimp only
      cases hfind : findAiNode resp.nodes node.title i with
      | none => simp only [hfind]; norm_num
      | some a =>
        simp only [hfind]
        cases hh : a.hours with
        | none => simp only [hh]; norm_num
        | some v =>
          simp only [hh]
          by_cases hv : v = 0
          · rw [if_pos hv]; norm_num
          · rw [if_neg hv]
            obtain ⟨l, hl, hal⟩ := findAiNode_mem resp.nodes node.title i a hfind
            exact lt_of_le_of_ne (hresp l hl a hal v hh) (Ne.symm hv)
    · exact ih (i + 1) e htail

/-- C9 counterexample: the claim that every returned estimate is positive
fails on the code: a parsed model response carrying minus three hours for
the matched node is passed through unchanged. -/
theorem estimateWorkflowTime_positive_counterexample :
    ¬ (∀ e ∈ (estimateWorkflowTime negLlm negParse negNodes).nodes,
        0 < e.estimatedHours) := by
  decide

/-- C9 (amended): for every input node list and every parsed model response
none of whose per-node hour values is negative, every NodeTimeEstimate
returned by estimateWorkflowTime has positive estimatedHours, with 5
substituted whenever the model omits a matching value or reports zero. -/
theorem estimateWorkflowTime_positive
    (llm : Except Unit (Option String))
    (parseEstimate : String → Except Unit EstimateResponse)
    (nodes : List EstimateInputNode)
    (hp : ∀ t r, parseEstimate t = .ok r → ∀ l, r.nodes = some l →
      ∀ a ∈ l, ∀ h, a.hours = some h → 0 ≤ h) :
    ∀ e ∈ (estimateWorkflowTime llm parseEstimate nodes).nodes,
      0 < e.estimatedHours := by
  cases llm with
  | error e => exact createDefaultEstimate_pos nodes
  | ok o =>
    unfold estimateWorkflowTime
    cases hm : jsonMatch (o.getD "") with
    | none =>
      simp only [hm]
      exact createDefaultEstimate_pos nodes
    | some t =>
      simp only [hm]
      cases hpt : parseEstimate t with
      | error e2 => exact createDefaultEstimate_pos nodes
      | ok resp =>
        exact mapEstimates_pos resp (hp t resp hpt) nodes 0

/-- Witness for C9 (amended): the default estimate of the single node is
positive. -/
theorem estimateWorkflowTime_positive_witness :
    0 < (NodeTimeEstimate.mk "1" "A" 5 "Pelajari A").estimatedHours :=
  estimateWorkflowTime_positive (Except.error ()) (fun _ => Except.error ())
    [⟨"1", "A", none⟩] (fun t r hr => Except.noConfusion hr)
    ⟨"1", "A", 5, "Pelajari A"⟩ (by decide)

/-- Run of the exporter loop when the remote accepts the first k requests
and throws on request k: the loop attempts exactly the first k+1 events in
input order, keeps the ids created so far, and rethrows the wrapped
message. -/
theorem createCalendarEventsGo_spec (api : Nat → ApiResult) (m : String) :
    ∀ (k : Nat) (events : List CalendarEvent) (i : Nat) (ids : List String),
      k < events.length → api (i + k) = .err m →
      (∀ j, j < k → ∃ o, api (i + j) = ApiResult.ok o) →
      createCalendarEventsGo api events i ids =
        ⟨events.take (k + 1), ids ++ createdIds api i k,
          Except.error ("Failed to create calendar event: " ++ m)⟩ := by
  intro k
  induction k with
  | zero =>
    intro events i ids hk herr hok
    cases events with
    | nil => simp at hk
    | cons e rest =>
      rw [createCalendarEventsGo]
      rw [show api i = ApiResult.err m from herr]
      simp [createdIds]
  | succ k ih =>
    intro events i ids hk herr hok
    cases events with
    | nil => simp at hk
    | cons e rest =>
      obtain ⟨o, ho⟩ := hok 0 (Nat.succ_pos k)
      rw [createCalendarEventsGo]
      rw [show api i = ApiResult.ok o from ho]
      have ih' := ih rest (i + 1) (ids ++ o.toList)
        (by simp only [List.length_cons] at hk; omega)
        (by rw [show i + 1 + k = i + (k + 1) from by omega]; exact herr)
        (fun j hj => by
          rw [show i + 1 + j = i + (j + 1) from by omega]
          exact hok (j + 1) (Nat.succ_lt_succ hj))
      dsimp only
      rw [ih']
      have ho' : api i = ApiResult.ok o := ho
      simp only [List.take_succ_cons, createdIds, ho', List.append_assoc]

/-- C6: when the first k insert calls succeed and the k-th (zero-based)
throws, createCalendarEvents issues insert requests for exactly the first
k+1 events in input sequence, then raises the wrapped error; the ids
created before the failure are kept (the function performs no rollback). -/
theorem createCalendarEvents_spec
    (api : Nat → ApiResult) (events : List CalendarEvent) (k : Nat) (m : String)
    (hk : k < events.length) (herr : api k = .err m)
    (hok : ∀ j, j < k → ∃ o, api j = ApiResult.ok o) :
    (createCalendarEvents api events).attempted = events.take (k + 1) ∧
    (createCalendarEvents api events).outcome =
      Except.error ("Failed to create calendar event: " ++ m) ∧
    (createCalendarEvents api events).created = createdIds api 0 k := by
  have h := createCalendarEventsGo_spec api m k events 0 [] hk
    (by simpa using herr) (fun j hj => by simpa using hok j hj)
  unfold createCalendarEvents
  rw [h]
  exact ⟨rfl, rfl, rfl⟩

/-- Witness for C6: three events, the remote throws on the second request;
only two inserts are attempted and id0 survives. -/
theorem createCalendarEvents_spec_witness :
    (createCalendarEvents calApiW [calEvW, calEvW, calEvW]).attempted =
      [calEvW, calEvW] ∧
    (createCalendarEvents calApiW [calEvW, calEvW, calEvW]).outcome =
      Except.error ("Failed to create calendar event: " ++ "boom") ∧
    (createCalendarEvents calApiW [calEvW, calEvW, calEvW]).created = ["id0"] := by
  obtain ⟨h1, h2, h3⟩ := createCalendarEvents_spec calApiW [calEvW, calEvW, calEvW]
    1 "boom" (by decide) (by decide)
    (fun j hj => ⟨some "id0", by
      have hj0 : j = 0 := by omega
      subst hj0
      rfl⟩)
  exact ⟨h1.trans (by decide), h2, h3.trans (by decide)⟩

/-- The session loop exits at once when the node needs no further hours. -/
theorem sessionLoop_exit (node : NodeTimeEstimate) (d : ℚ) (fuel : Nat)
    (s : ℚ) (day : ℤ) (h : ¬ s < node.estimatedHours) :
    sessionLoop node d fuel s day = some ([], day) := by
  rw [sessionLoop.eq_def]
  simp [h]

/-- One loop step shrinks the hour debt by enough to lower the linear fuel
bound by one day budget. -/
theorem sessionLoop_step_bound (h s d : ℚ) (fuel : Nat) (hd : 0 < d)
    (hle : h - s ≤ d * ((fuel + 1 : ℕ) : ℚ)) :
    h - (s + min d (h - s)) ≤ d * (fuel : ℚ) := by
  rcases le_total d (h - s) with hc | hc
  · rw [min_eq_left hc]
    push_cast at hle
    linarith
  · rw [min_eq_right hc]
    have hnn : (0:ℚ) ≤ d * fuel := by positivity
    linarith

/-- With positive daily hours, fuel covering the hour debt makes the
session loop terminate. -/
theorem sessionLoop_some (node : NodeTimeEstimate) (d : ℚ) (hd : 0 < d) :
    ∀ (fuel : Nat) (s : ℚ) (day : ℤ),
      node.estimatedHours - s ≤ d * fuel →
      ∃ evs endDay, sessionLoop node d fuel s day = some (evs, endDay) := by
  intro fuel
  induction fuel with
  | zero =>
    intro s day hle
    refine ⟨[], day, sessionLoop_exit node d 0 s day ?_⟩
    intro hlt
    push_cast at hle
    linarith
  | succ fuel ih =>
    intro s day hle
    by_cases hlt : s < node.estimatedHours
    · obtain ⟨evs, endDay, heq⟩ :=
        ih (s + min d (node.estimatedHours - s)) (day + 1)
          (sessionLoop_step_bound node.estimatedHours s d fuel hd hle)
      refine ⟨⟨node.nodeTitle, node.description, day,
        min d (node.estimatedHours - s)⟩ :: evs, endDay, ?_⟩
      rw [sessionLoop.eq_def]
      simp only [if_pos hlt]
      rw [heq]
    · exact ⟨[], day, sessionLoop_exit node d (fuel + 1) s day hlt⟩

/-- With positive daily hours and an open debt, the first session of the
loop is dated on the entry day with duration min d remaining. -/
theorem sessionLoop_cons (node : NodeTimeEstimate) (d : ℚ) (hd : 0 < d)
    (fuel : Nat) (s : ℚ) (day : ℤ)
    (hlt : s < node.estimatedHours)
    (hfuel : node.estimatedHours - s ≤ d * fuel) :
    ∃ evs endDay, sessionLoop node d fuel s day =
      some (⟨node.nodeTitle, node.description, day,
        min d (node.estimatedHours - s)⟩ :: evs, endDay) := by
  cases fuel with
  | zero =>
    exfalso
    push_cast at hfuel
    linarith
  | succ fuel =>
    obtain ⟨evs, endDay, heq⟩ :=
      sessionLoop_some node d hd fuel (s + min d (node.estimatedHours - s))
        (day + 1) (sessionLoop_step_bound node.estimatedHours s d fuel hd hfuel)
    refine ⟨evs, endDay, ?_⟩
    rw [sessionLoop.eq_def]
    simp only [if_pos hlt]
    rw [heq]

/-- One unfolding of the session loop while the node still has open debt. -/
theorem sessionLoop_step (node : NodeTimeEstimate) (d : ℚ) (fuel : Nat)
    (s : ℚ) (day : ℤ) (hlt : s < node.estimatedHours) :
    sessionLoop node d (fuel + 1) s day =
      match sessionLoop node d fuel (s + min d (node.estimatedHours - s)) (day + 1) with
      | none => none
      | some (evs, endDay) =>
        some (⟨node.nodeTitle, node.description, day,
          min d (node.estimatedHours - s)⟩ :: evs, endDay) := by
  rw [sessionLoop.eq_def]
  simp only [if_pos hlt]

/-- With nonpositive daily hours, a session adds no progress and the loop
runs out of any fuel while the node still has positive debt. -/
theorem sessionLoop_none (node : NodeTimeEstimate) (d : ℚ)
    (hd : d ≤ 0) (hpos : 0 < node.estimatedHours) :
    ∀ (fuel : Nat) (s : ℚ) (day : ℤ), s ≤ 0 →
      sessionLoop node d fuel s day = none := by
  intro fuel
  induction fuel with
  | zero =>
    intro s day hs
    rw [sessionLoop.eq_def]
    simp [lt_of_le_of_lt hs hpos]
  | succ fuel ih =>
    intro s day hs
    rw [sessionLoop.eq_def]
    have hlt : s < node.estimatedHours := lt_of_le_of_lt hs hpos
    simp only [if_pos hlt]
    have hmin : min d (node.estimatedHours - s) ≤ 0 :=
      le_trans (min_le_left _ _) hd
    rw [ih (s + min d (node.estimatedHours - s)) (day + 1) (by linarith)]

/-- With positive daily hours the whole generator terminates: one fuel
budget works for every start day. -/
theorem generateLearningSchedule_some (d : ℚ) (hd : 0 < d) :
    ∀ (nodes : List NodeTimeEstimate), ∃ fuel₀ : Nat,
      ∀ (fuel : Nat), fuel₀ ≤ fuel → ∀ (day : ℤ),
        ∃ evs, generateLearningSchedule fuel nodes day d = some evs := by
  intro nodes
  induction nodes with
  | nil => exact ⟨0, fun fuel _ day => ⟨[], rfl⟩⟩
  | cons node rest ih =>
    obtain ⟨F, hF⟩ := ih
    obtain ⟨N, hN⟩ : ∃ N : Nat, node.estimatedHours ≤ d * N := by
      rcases le_or_lt node.estimatedHours 0 with hle | hpos
      · exact ⟨0, by push_cast; linarith⟩
      · refine ⟨⌈node.estimatedHours / d⌉₊, ?_⟩
        have h1 : node.estimatedHours / d ≤ (⌈node.estimatedHours / d⌉₊ : ℚ) :=
          Nat.le_ceil _
        have h2 : node.estimatedHours = d * (node.estimatedHours / d) := by
          field_simp
        nlinarith
    refine ⟨max N F, fun fuel hfuel day => ?_⟩
    have hcast : (N : ℚ) ≤ (fuel : ℚ) := by
      exact_mod_cast le_trans (le_max_left N F) hfuel
    have hb : node.estimatedHours - 0 ≤ d * fuel := by
      rw [sub_zero]
      nlinarith
    obtain ⟨evs1, endDay, h1⟩ := sessionLoop_some node d hd fuel 0 day hb
    obtain ⟨evs2, h2⟩ := hF fuel (le_trans (le_max_right N F) hfuel) endDay
    refine ⟨evs1 ++ evs2, ?_⟩
    rw [generateLearningSchedule]
    simp only [h1, h2]

/-- With nonpositive daily hours and any node of positive estimate, the
generator diverges: every fuel budget is exhausted. -/
theorem generateLearningSchedule_noneOf (d : ℚ) (hd : d ≤ 0) :
    ∀ (nodes : List NodeTimeEstimate), (∃ n ∈ nodes, 0 < n.estimatedHours) →
      ∀ (fuel : Nat) (day : ℤ),
        generateLearningSchedule fuel nodes day d = none := by
  intro nodes
  induction nodes with
  | nil =>
    rintro ⟨n, hn, _⟩
    simp at hn
  | cons node rest ih =>
    rintro ⟨n, hn, hpos⟩ fuel day
    by_cases hnode : 0 < node.estimatedHours
    · rw [generateLearningSchedule,
        sessionLoop_none node d hd hnode fuel 0 day le_rfl]
    · rcases List.mem_cons.mp hn with rfl | hmem
      · exact absurd hpos hnode
      · rw [generateLearningSchedule,
          sessionLoop_exit node d fuel 0 day hnode]
        dsimp only
        rw [ih ⟨n, hmem, hpos⟩ fuel day]

/-- C10: generateLearningSchedule terminates for every node list whenever
dailyHours is positive; with dailyHours zero or negative and a node of
positive estimate the inner loop never closes its debt and the function
diverges (every fuel bound is exhausted); and the implement route forwards
a negative request-body daily_hours to this parameter unchanged, since only
a falsy value is replaced by the suggested default. -/
theorem generateLearningSchedule_termination :
    (∀ d : ℚ, 0 < d → ∀ (nodes : List NodeTimeEstimate) (day : ℤ),
      ∃ fuel₀ : Nat, ∀ fuel : Nat, fuel₀ ≤ fuel →
        ∃ evs, generateLearningSchedule fuel nodes day d = some evs) ∧
    (∀ d : ℚ, d ≤ 0 → ∀ (nodes : List NodeTimeEstimate),
      (∃ n ∈ nodes, 0 < n.estimatedHours) →
      ∀ (fuel : Nat) (day : ℤ),
        generateLearningSchedule fuel nodes day d = none) ∧
    (∀ (d suggested : ℚ), d < 0 → resolveDailyHours (some d) suggested = d) := by
  refine ⟨fun d hd nodes day => ?_,
    fun d hd nodes hn fuel day =>
      generateLearningSchedule_noneOf d hd nodes hn fuel day,
    fun d s hd => ?_⟩
  · obtain ⟨F, hF⟩ := generateLearningSchedule_some d hd nodes
    exact ⟨F, fun fuel hf => hF fuel hf day⟩
  · simp [resolveDailyHours, ne_of_lt hd]

/-- Witness for C10: a one-hour node with daily budget minus one never
terminates, and the route forwards minus one unchecked. -/
theorem generateLearningSchedule_termination_witness :
    generateLearningSchedule 5 [negSchedNode] 0 (-1) = none ∧
    resolveDailyHours (some (-1)) 2 = -1 :=
  ⟨generateLearningSchedule_termination.2.1 (-1) (by norm_num) [negSchedNode]
      ⟨negSchedNode, by decide, by decide⟩ 5 0,
    generateLearningSchedule_termination.2.2 (-1) 2 (by norm_num)⟩

/-- C3: a single node of five estimated hours at daily budget two starting
on day D is expanded into exactly three sessions of durations two, two and
one dated on days D, D+1 and D+2. -/
theorem generateLearningSchedule_single
    (nodeId title desc : String) (D : ℤ) (fuel : Nat) (hfuel : 3 ≤ fuel) :
    generateLearningSchedule fuel [⟨nodeId, title, 5, desc⟩] D 2 =
      some [⟨title, desc, D, 2⟩, ⟨title, desc, D + 1, 2⟩,
        ⟨title, desc, D + 2, 1⟩] := by
  obtain ⟨k, rfl⟩ : ∃ k, fuel = k + 3 := ⟨fuel - 3, by omega⟩
  have hstep3 : sessionLoop ⟨nodeId, title, 5, desc⟩ 2 (k + 3) 0 D =
      some ([⟨title, desc, D, 2⟩, ⟨title, desc, D + 1, 2⟩,
        ⟨title, desc, D + 2, 1⟩], D + 3) := by
    rw [show k + 3 = (k + 2) + 1 from rfl,
      sessionLoop_step _ _ _ _ _ (by norm_num)]
    norm_num [min_def]
    rw [show k + 2 = (k + 1) + 1 from rfl,
      sessionLoop_step _ _ _ _ _ (by norm_num)]
    norm_num [min_def]
    rw [sessionLoop_step _ _ _ _ _ (by norm_num)]
    norm_num [min_def]
    rw [sessionLoop_exit _ _ _ _ _ (by norm_num)]
    norm_num
    omega
  rw [generateLearningSchedule, hstep3]
  dsimp only
  rw [generateLearningSchedule]
  simp

/-- Witness for C3 at fuel three and start day zero. -/
theorem generateLearningSchedule_single_witness :
    generateLearningSchedule 3 [⟨"n", "t", 5, "d"⟩] 0 2 =
      some [⟨"t", "d", 0, 2⟩, ⟨"t", "d", 0 + 1, 2⟩, ⟨"t", "d", 0 + 2, 1⟩] :=
  generateLearningSchedule_single "n" "t" "d" 0 3 (le_refl 3)

/-- C4: for a first node needing exactly the daily budget and a second node
with positive estimate, the schedule opens with the first node done in one
session on day D, and the second node starting on day D+1, never on day D:
leftover capacity is not rolled into the next node on the same day. -/
theorem generateLearningSchedule_twoNodes
    (n1 n2 : NodeTimeEstimate) (d : ℚ) (D : ℤ) (fuel : Nat)
    (hd : 0 < d) (h1 : n1.estimatedHours = d) (h2 : 0 < n2.estimatedHours)
    (hfuel : n2.estimatedHours ≤ d * fuel) :
    (generateLearningSchedule fuel [n1, n2] D d).map (fun l => l.take 2) =
      some [⟨n1.nodeTitle, n1.description, D, d⟩,
        ⟨n2.nodeTitle, n2.description, D + 1, min d n2.estimatedHours⟩] := by
  have hfuel1 : 1 ≤ fuel := by
    by_contra hc
    push_neg at hc
    interval_cases fuel
    push_cast at hfuel
    linarith
  obtain ⟨f, rfl⟩ : ∃ f, fuel = f + 1 := ⟨fuel - 1, by omega⟩
  have hn1 : sessionLoop n1 d (f + 1) 0 D =
      some ([⟨n1.nodeTitle, n1.description, D, d⟩], D + 1) := by
    rw [sessionLoop_step _ _ _ _ _ (by rw [h1]; exact hd)]
    rw [sessionLoop_exit _ _ _ _ _ (by rw [h1]; simp)]
    simp [h1]
  obtain ⟨evs, endDay, hn2⟩ :=
    sessionLoop_cons n2 d hd (f + 1) 0 (D + 1) h2 (by rw [sub_zero]; exact hfuel)
  rw [generateLearningSchedule]
  simp only [hn1]
  rw [generateLearningSchedule]
  simp only [hn2]
  rw [generateLearningSchedule]
  simp [sub_zero]

/-- Witness for C4: two hours then three hours at daily budget two starting
day zero. -/
theorem generateLearningSchedule_twoNodes_witness :
    (generateLearningSchedule 2 [⟨"1", "A", 2, "a"⟩, ⟨"2", "B", 3, "b"⟩] 0 2).map
        (fun l => l.take 2) =
      some [⟨"A", "a", 0, 2⟩, ⟨"B", "b", 0 + 1, min 2 3⟩] :=
  generateLearningSchedule_twoNodes ⟨"1", "A", 2, "a"⟩ ⟨"2", "B", 3, "b"⟩ 2 0 2
    (by norm_num) rfl (by norm_num) (by norm_num)

end Backend
